import Mathlib

/-!
Shallow embedding of the pcap-transfer packet synthesizer core
(field-expression engine, packet assembler, message scheduler predicates,
network-endpoint validation), translated from the Rust sources under `src/`.

Machine integers are modelled as `Nat`/`Int`; little-endian encoding and
two's-complement wrapping are explicit.  Strings are processed through
structural `List Char` helpers mirroring the corresponding `str` methods
(`trim`, `split`, `strip_prefix`, ...), so everything evaluates by kernel
reduction.  Floating-point parsing and comparison (Rust `core` library,
external to this repository) are abstracted as a `FloatCodec` parameter that
yields IEEE-754 bit patterns; random sampling (`rand::thread_rng`) is
abstracted as a `RandSample` record carrying the drawn values.
-/

namespace PcapTransfer

/-! ### Character-list string helpers (mirroring Rust `str` methods) -/

/-- Leading-whitespace drop, as in `str::trim_start`. -/
def trimLeadChars (cs : List Char) : List Char :=
  cs.dropWhile Char.isWhitespace

/-- Rust `str::trim`: drop leading and trailing whitespace. -/
def trimChars (cs : List Char) : List Char :=
  (trimLeadChars ((trimLeadChars cs.reverse).reverse))

/-- Rust `str::trim` on `String`. -/
def strTrim (s : String) : String :=
  String.mk (trimChars s.toList)

/-- Split a character list at the FIRST occurrence of `c`
(mirrors `str::find` followed by `split_at`); `none` when absent. -/
def splitFirst (c : Char) : List Char → Option (List Char × List Char)
  | [] => none
  | x :: xs =>
    if x = c then some ([], xs)
    else
      match splitFirst c xs with
      | some (l, r) => some (x :: l, r)
      | none => none

/-- Rust `str::split(c)`: split on every occurrence of the character `c`.
On the empty string this yields one empty piece, as in Rust. -/
def splitAllChar (c : Char) : List Char → List (List Char)
  | [] => [[]]
  | x :: xs =>
    if x = c then [] :: splitAllChar c xs
    else
      match splitAllChar c xs with
      | piece :: rest => (x :: piece) :: rest
      | [] => [[x]]

/-- Rust `str::split` on `String`, trimming nothing. -/
def strSplitChar (c : Char) (s : String) : List String :=
  (splitAllChar c s.toList).map String.mk

/-- Rust `str::starts_with` for a pattern given as a string. -/
def strStartsWith (s pat : String) : Bool :=
  pat.toList.isPrefixOf s.toList

/-- Rust `str::strip_prefix`: the remainder after `pat`, when `pat` leads. -/
def strStripLead (s pat : String) : Option String :=
  if strStartsWith s pat then some (String.mk (s.toList.drop pat.toList.length))
  else none

/-- Rust `str::strip_suffix(')')`-style removal of one trailing character. -/
def strStripTail (s : String) (c : Char) : Option String :=
  match s.toList.reverse with
  | [] => none
  | x :: xs => if x = c then some (String.mk xs.reverse) else none

/-- Containment of `pat` at any position of the character list. -/
def listContainsSub (pat : List Char) : List Char → Bool
  | [] => pat.isPrefixOf []
  | c :: cs => pat.isPrefixOf (c :: cs) || listContainsSub pat cs

/-- Substring containment test, as in `str::contains(pattern)`. -/
def strContainsSub (s pat : String) : Bool :=
  listContainsSub pat.toList s.toList

/-- ASCII `str::to_lowercase`. -/
def strToLower (s : String) : String :=
  String.mk (s.toList.map Char.toLower)

/-! ### Little-endian byte encoding -/

/-- Rust `to_le_bytes` on an unsigned value: `width` bytes, least significant first. -/
def toLeBytes (width : Nat) (v : Nat) : List Nat :=
  (List.range width).map (fun i => v / 256 ^ i % 256)

/-- Two's-complement wrap of an integer to `width` bytes (Rust `as iN` / `as uN`). -/
def wrapToWidth (width : Nat) (v : Int) : Nat :=
  (v % ((2 : Int) ^ (8 * width))).toNat

/-- Rust `to_le_bytes` on a signed value via its two's-complement representation. -/
def intToLeBytes (width : Nat) (v : Int) : List Nat :=
  toLeBytes width (wrapToWidth width v)

/-- Wrapping reduction of an integer into the `i64` range
`[-2^63, 2^63)`: the value of a Rust `as i64` cast (from `u64`/`usize`)
and of release-mode `i64` arithmetic. -/
def wrapI64 (v : Int) : Int :=
  (v + 2 ^ 63) % 2 ^ 64 - 2 ^ 63

/-! ### Integer literal parsing (Rust `FromStr` for integer types) -/

/-- Accumulate decimal digits; any non-digit character fails. -/
def parseDigitsAux : List Char → Nat → Option Nat
  | [], acc => some acc
  | c :: cs, acc =>
    if c.isDigit then parseDigitsAux cs (acc * 10 + (c.toNat - 48)) else none

/-- A non-empty all-digit run parsed as a `Nat`. -/
def parseNatDigits (cs : List Char) : Option Nat :=
  match cs with
  | [] => none
  | _ => parseDigitsAux cs 0

/-- Rust `FromStr` for an unsigned integer type with maximum `hi`:
optional `+` sign, at least one digit, value within range.
A `-` sign is rejected outright for unsigned types. -/
def rustParseUnsigned (hi : Nat) (s : String) : Option Nat :=
  match s.toList with
  | '+' :: rest => (parseNatDigits rest).bind (fun v => if v ≤ hi then some v else none)
  | '-' :: _ => none
  | cs => (parseNatDigits cs).bind (fun v => if v ≤ hi then some v else none)

/-- Rust `FromStr` for a signed integer type with bounds `[lo, hi]`. -/
def rustParseSigned (lo hi : Int) (s : String) : Option Int :=
  match s.toList with
  | '+' :: rest => (parseNatDigits rest).bind (fun v => if (v : Int) ≤ hi then some (v : Int) else none)
  | '-' :: rest => (parseNatDigits rest).bind (fun v => if lo ≤ -(v : Int) then some (-(v : Int)) else none)
  | cs => (parseNatDigits cs).bind (fun v => if (v : Int) ≤ hi then some (v : Int) else none)

/-! ### Hex digits and `u8::from_str_radix(_, 16)` -/

/-- Value of one hexadecimal digit character. -/
def hexDigitVal (c : Char) : Option Nat :=
  if '0' ≤ c ∧ c ≤ '9' then some (c.toNat - 48)
  else if 'a' ≤ c ∧ c ≤ 'f' then some (c.toNat - 97 + 10)
  else if 'A' ≤ c ∧ c ≤ 'F' then some (c.toNat - 65 + 10)
  else none

/-- Accumulate hex digits (no sign handling). -/
def hexDigitsAux : List Char → Nat → Option Nat
  | [], acc => some acc
  | c :: cs, acc =>
    match hexDigitVal c with
    | some d => hexDigitsAux cs (acc * 16 + d)
    | none => none

/-- Rust `u8::from_str_radix(chunk, 16)` on a 1- or 2-character chunk:
optional leading `+` (with at least one digit after it); `-` rejected
for the unsigned type; chunks this short cannot overflow `u8`. -/
def hexPairVal (cs : List Char) : Option Nat :=
  match cs with
  | [] => none
  | '+' :: rest => match rest with
    | [] => none
    | _ => hexDigitsAux rest 0
  | '-' :: _ => none
  | _ => hexDigitsAux cs 0

/-! ### Error type (`src/app/error/types.rs`, variants used by the core) -/

/-- Rust `DataTransferError` restricted to the variants reachable from the
embedded core (`Validation`, `Network`, `Config`). -/
inductive AppError
  | validationErr (field message : String)
  | networkErr (message : String)
  | configErr (message : String)
  deriving DecidableEq, Repr

/-! ### Field data types (`src/core/field_types/types.rs`) -/

/-- Rust `FieldDataType`: fixed-width numeric kinds, `Bool`, and sized hex. -/
inductive FieldDataType
  | I8 | I16 | I32 | I64
  | U8 | U16 | U32 | U64
  | F32 | F64
  | Bool
  | HexDynamic (size : Nat)
  deriving DecidableEq, Repr

/-- Abstraction of Rust `core` floating-point routines (external library
code, not part of this repository): parsing `f32`/`f64` literals to their
IEEE-754 bit patterns and the `f64` ordering used by `min > max` checks. -/
structure FloatCodec where
  parse32 : String → Option Nat
  parse64 : String → Option Nat
  gt64 : Nat → Nat → Bool

/-- Abstraction of `rand::thread_rng` draws: one record per evaluation
carrying the sampled value for each `rand` family (float samples as the
bit patterns of the already-cast result). -/
structure RandSample where
  intVal : Int
  uintVal : Nat
  floatBits32 : Nat
  floatBits64 : Nat
  boolVal : Bool
  hexVal : Nat

/-! ### Hex string parsing (`src/core/field_types/parser.rs`) -/

/-- Chunks-of-two conversion of an (even-length) hex character run, first
invalid pair aborts with `Invalid hex value: {pair}`. -/
def hexChunksToBytes : List Char → Except String (List Nat)
  | [] => .ok []
  | a :: b :: rest =>
    match hexPairVal [a, b] with
    | some v => (hexChunksToBytes rest).map (fun tl => v :: tl)
    | none => .error ("Invalid hex value: " ++ String.mk [a, b])
  | [a] =>
    match hexPairVal [a] with
    | some v => .ok [v]
    | none => .error ("Invalid hex value: " ++ String.mk [a])

/-- Rust `parse_hex_string`: trim, strip an optional `0x`/`0X` prefix, return
`[0]` for the empty string, left-pad odd lengths with one `0` nibble, then
convert byte pairs.  (Byte chunking is modelled as character chunking,
which agrees on ASCII input.) -/
def parse_hex_string (hex_str : String) : Except String (List Nat) :=
  let s := trimChars hex_str.toList
  let s := if ['0', 'x'].isPrefixOf s ∨ ['0', 'X'].isPrefixOf s then s.drop 2 else s
  if s.isEmpty then .ok [0]
  else
    let s := if s.length % 2 = 1 then '0' :: s else s
    hexChunksToBytes s

/-! ### Expression AST (`src/core/field_types/expr/types.rs`) -/

/-- Rust `SwitchCondition`: absolute 1-based position, negative relative
position, or inclusive 1-based range. -/
inductive SwitchCondition
  | Absolute (pos : Nat)
  | Relative (offset : Int)
  | Range (startPos endPos : Nat)
  deriving DecidableEq, Repr

/-- Rust `SwitchRule`: a condition together with its value string. -/
structure SwitchRule where
  condition : SwitchCondition
  value : String
  deriving DecidableEq, Repr

/-- Rust `DefaultExpr`: default-value expression attached to a field type.
Float bounds are carried as `f64` bit patterns (see `FloatCodec`). -/
inductive DefaultExpr
  | Literal (s : String)
  | RandInt (min max : Int)
  | RandUint (min max : Nat)
  | RandFloat (min max : Nat)
  | RandBool
  | RandHex (min max : Nat) (byte_size : Nat)
  | Loop (items : List String)
  | Switch (default_value : String) (rules : List SwitchRule)
  deriving DecidableEq, Repr

/-! ### Value codec (`src/core/field_types/expr/utils.rs`) -/

/-- Rust `parse_hex_u128`: hex string to an unsigned value assembled
little-endian from the parsed bytes. -/
def leBytesToNat : List Nat → Nat
  | [] => 0
  | b :: rest => b + 256 * leBytesToNat rest

/-- Rust `parse_hex_u128` itself. -/
def parse_hex_u128 (hex_str : String) : Except String Nat :=
  (parse_hex_string hex_str).map leBytesToNat

/-- The `AppError::validation` produced when `parse_numeric_literal`
fails: `Invalid {ty} value '{raw}'`. -/
def invalidValueErr (ty_name raw : String) : AppError :=
  .validationErr ty_name ("Invalid " ++ ty_name ++ " value \x27" ++ raw ++ "\x27")

/-- Rust `parse_numeric_literal::<iN>`: trim, parse, range-check; on failure a
validation error quoting the ORIGINAL raw string. -/
def parse_numeric_i (lo hi : Int) (raw ty_name : String) : Except AppError Int :=
  match rustParseSigned lo hi (strTrim raw) with
  | some v => .ok v
  | none => .error (invalidValueErr ty_name raw)

/-- Rust `parse_numeric_literal::<uN>`. -/
def parse_numeric_u (hi : Nat) (raw ty_name : String) : Except AppError Nat :=
  match rustParseUnsigned hi (strTrim raw) with
  | some v => .ok v
  | none => .error (invalidValueErr ty_name raw)

/-- Rust `parse_numeric_literal::<fN>` via the external float codec. -/
def parse_numeric_f (p : String → Option Nat) (raw ty_name : String) : Except AppError Nat :=
  match p (strTrim raw) with
  | some bits => .ok bits
  | none => .error (invalidValueErr ty_name raw)

/-- Rust `parse_bool_literal`: trimmed, case-insensitive truthy/falsy sets. -/
def parse_bool_literal (raw : String) : Except AppError Bool :=
  let t := strToLower (strTrim raw)
  if t = "true" ∨ t = "1" ∨ t = "yes" ∨ t = "on" then .ok true
  else if t = "false" ∨ t = "0" ∨ t = "no" ∨ t = "off" then .ok false
  else .error (.validationErr "bool" ("Invalid bool value \x27" ++ raw ++ "\x27"))

/-- The hex-length mismatch validation error shared by
`parse_field_value_by_type` and `evaluate_literal`. -/
def hexLengthErr (found expected : Nat) : AppError :=
  .validationErr "hex"
    ("Hex value length " ++ toString found ++ " doesn\x27t match expected size " ++ toString expected)

/-- Rust `parse_field_value_by_type`: trim the value, then dispatch on the data
type; numerics encode little-endian at the type's width, bool to one byte,
hex must decode to exactly `size` bytes. -/
def parse_field_value_by_type (fc : FloatCodec) (data_type : FieldDataType) (value : String) :
    Except AppError (List Nat) :=
  let v := strTrim value
  match data_type with
  | .I8 => (parse_numeric_i (-128) 127 v "i8").map (intToLeBytes 1)
  | .I16 => (parse_numeric_i (-32768) 32767 v "i16").map (intToLeBytes 2)
  | .I32 => (parse_numeric_i (-2147483648) 2147483647 v "i32").map (intToLeBytes 4)
  | .I64 => (parse_numeric_i (-(2 ^ 63)) (2 ^ 63 - 1) v "i64").map (intToLeBytes 8)
  | .U8 => (parse_numeric_u 255 v "u8").map (toLeBytes 1)
  | .U16 => (parse_numeric_u 65535 v "u16").map (toLeBytes 2)
  | .U32 => (parse_numeric_u 4294967295 v "u32").map (toLeBytes 4)
  | .U64 => (parse_numeric_u (2 ^ 64 - 1) v "u64").map (toLeBytes 8)
  | .F32 => (parse_numeric_f fc.parse32 v "f32").map (toLeBytes 4)
  | .F64 => (parse_numeric_f fc.parse64 v "f64").map (toLeBytes 8)
  | .Bool => (parse_bool_literal v).map (fun b => [if b then 1 else 0])
  | .HexDynamic size =>
    match parse_hex_string v with
    | .error e => .error (.validationErr "hex" e)
    | .ok bytes =>
      if bytes.length ≠ size then .error (hexLengthErr bytes.length size)
      else .ok bytes

/-! ### Evaluators (`src/core/field_types/expr/evaluators/`) -/

/-- Rust `evaluate_literal`: same dispatch as `parse_field_value_by_type`, but
error messages quote the UNtrimmed literal (parsers trim internally). -/
def evaluate_literal (fc : FloatCodec) (literal : String) (data_type : FieldDataType) :
    Except AppError (List Nat) :=
  match data_type with
  | .I8 => (parse_numeric_i (-128) 127 literal "i8").map (intToLeBytes 1)
  | .I16 => (parse_numeric_i (-32768) 32767 literal "i16").map (intToLeBytes 2)
  | .I32 => (parse_numeric_i (-2147483648) 2147483647 literal "i32").map (intToLeBytes 4)
  | .I64 => (parse_numeric_i (-(2 ^ 63)) (2 ^ 63 - 1) literal "i64").map (intToLeBytes 8)
  | .U8 => (parse_numeric_u 255 literal "u8").map (toLeBytes 1)
  | .U16 => (parse_numeric_u 65535 literal "u16").map (toLeBytes 2)
  | .U32 => (parse_numeric_u 4294967295 literal "u32").map (toLeBytes 4)
  | .U64 => (parse_numeric_u (2 ^ 64 - 1) literal "u64").map (toLeBytes 8)
  | .F32 => (parse_numeric_f fc.parse32 literal "f32").map (toLeBytes 4)
  | .F64 => (parse_numeric_f fc.parse64 literal "f64").map (toLeBytes 8)
  | .Bool => (parse_bool_literal literal).map (fun b => [if b then 1 else 0])
  | .HexDynamic size =>
    match parse_hex_string literal with
    | .error e => .error (.validationErr "hex" e)
    | .ok bytes =>
      if bytes.length ≠ size then .error (hexLengthErr bytes.length size)
      else .ok bytes

/-- Rust `evaluate_rand_int`: the drawn value (cast through `i64` for the
sub-64-bit kinds) is wrapped to the target width; non-signed-integer
data types are rejected. -/
def evaluate_rand_int (rs : RandSample) (_min _max : Int) (data_type : FieldDataType) :
    Except AppError (List Nat) :=
  match data_type with
  | .I8 => .ok (intToLeBytes 1 rs.intVal)
  | .I16 => .ok (intToLeBytes 2 rs.intVal)
  | .I32 => .ok (intToLeBytes 4 rs.intVal)
  | .I64 => .ok (intToLeBytes 8 rs.intVal)
  | _ => .error (.validationErr "rand_int" "Invalid data type for random integer")

/-- Rust `evaluate_rand_uint`: drawn value truncated (`as uN`) to the width. -/
def evaluate_rand_uint (rs : RandSample) (_min _max : Nat) (data_type : FieldDataType) :
    Except AppError (List Nat) :=
  match data_type with
  | .U8 => .ok (toLeBytes 1 (rs.uintVal % 2 ^ 8))
  | .U16 => .ok (toLeBytes 2 (rs.uintVal % 2 ^ 16))
  | .U32 => .ok (toLeBytes 4 (rs.uintVal % 2 ^ 32))
  | .U64 => .ok (toLeBytes 8 (rs.uintVal % 2 ^ 64))
  | _ => .error (.validationErr "rand_uint" "Invalid data type for random unsigned integer")

/-- Rust `evaluate_rand_float`: the drawn (and, for `F32`, cast) sample's bit
pattern encoded at the type's width. -/
def evaluate_rand_float (rs : RandSample) (_min _max : Nat) (data_type : FieldDataType) :
    Except AppError (List Nat) :=
  match data_type with
  | .F32 => .ok (toLeBytes 4 rs.floatBits32)
  | .F64 => .ok (toLeBytes 8 rs.floatBits64)
  | _ => .error (.validationErr "rand_float" "Invalid data type for random float")

/-- Rust `evaluate_rand_bool`: one byte, `1` for true. -/
def evaluate_rand_bool (rs : RandSample) : Except AppError (List Nat) :=
  .ok [if rs.boolVal then 1 else 0]

/-- Rust `evaluate_rand_hex`: constant when `min == max`, otherwise the drawn
value; `byte_size` must equal the type's size; bytes are the value's
little-endian digits. -/
def evaluate_rand_hex (rs : RandSample) (min max byte_size : Nat) (data_type : FieldDataType) :
    Except AppError (List Nat) :=
  let v := if min = max then min else rs.hexVal
  match data_type with
  | .HexDynamic size =>
    if byte_size ≠ size then
      .error (.validationErr "hex" "hex rand byte_size mismatch with type")
    else .ok (toLeBytes size v)
  | _ => .error (.validationErr "rand_hex" "Invalid data type for random hex")

/-- Rust `evaluate_loop`: pick `items[row_index mod |items|]` and reinterpret
it through the value codec. -/
def evaluate_loop (fc : FloatCodec) (items : List String) (row_index : Nat)
    (data_type : FieldDataType) : Except AppError (List Nat) :=
  parse_field_value_by_type fc data_type (items.getD (row_index % items.length) "")

/-- Rust `matches_condition` (`switch_evaluator.rs`): `target_pos =
(total as i64) + (offset as i64) + 1` compared against
`packet_index as i64`.  The casts from `u64` (`total`) and `usize`
(`packet_index`) wrap, as does the `i64` addition, so both are taken
through `wrapI64`; `offset` inhabits the `i32` range, where `as i64` is
exact. -/
def matches_condition (condition : SwitchCondition) (packet_index : Nat)
    (total_packets : Option Nat) : Bool :=
  match condition with
  | .Absolute pos => packet_index == pos
  | .Relative offset =>
    match total_packets with
    | some total =>
      if total = 0 then false
      else
        decide (wrapI64 (wrapI64 (total : Int) + offset + 1) > 0) &&
          (wrapI64 (packet_index : Int) == wrapI64 (wrapI64 (total : Int) + offset + 1))
    | none => false
  | .Range startPos endPos => decide (packet_index ≥ startPos) && decide (packet_index ≤ endPos)

/-- The rule loop of `evaluate_switch`: first matching rule wins, its
value goes through the codec; fall through to the default value. -/
def evaluate_switch_rules (fc : FloatCodec) (data_type : FieldDataType) (default_value : String)
    (packet_index : Nat) (total_packets : Option Nat) :
    List SwitchRule → Except AppError (List Nat)
  | [] => parse_field_value_by_type fc data_type default_value
  | rule :: rest =>
    if matches_condition rule.condition packet_index total_packets then
      parse_field_value_by_type fc data_type rule.value
    else evaluate_switch_rules fc data_type default_value packet_index total_packets rest

/-- Rust `evaluate_switch`: 1-based `packet_index = row_index + 1`, then the
rule loop. -/
def evaluate_switch (fc : FloatCodec) (default_value : String) (rules : List SwitchRule)
    (row_index : Nat) (total_packets : Option Nat) (data_type : FieldDataType) :
    Except AppError (List Nat) :=
  evaluate_switch_rules fc data_type default_value (row_index + 1) total_packets rules

/-- Rust `DefaultExpr::evaluate`: dispatch to the per-variant evaluators. -/
def DefaultExpr.evaluate (e : DefaultExpr) (fc : FloatCodec) (rs : RandSample)
    (data_type : FieldDataType) (row_index : Nat) (total_packets : Option Nat) :
    Except AppError (List Nat) :=
  match e with
  | .Literal s => evaluate_literal fc s data_type
  | .RandInt mn mx => evaluate_rand_int rs mn mx data_type
  | .RandUint mn mx => evaluate_rand_uint rs mn mx data_type
  | .RandFloat mn mx => evaluate_rand_float rs mn mx data_type
  | .RandBool => evaluate_rand_bool rs
  | .RandHex mn mx bsz => evaluate_rand_hex rs mn mx bsz data_type
  | .Loop items => evaluate_loop fc items row_index data_type
  | .Switch dv rules => evaluate_switch fc dv rules row_index total_packets data_type

/-- Rust `FieldDataType::default_value`: the all-zero encoding at the type's
width. -/
def FieldDataType.default_value : FieldDataType → List Nat
  | .I8 => [0]
  | .I16 => [0, 0]
  | .I32 => [0, 0, 0, 0]
  | .I64 => [0, 0, 0, 0, 0, 0, 0, 0]
  | .U8 => [0]
  | .U16 => [0, 0]
  | .U32 => [0, 0, 0, 0]
  | .U64 => [0, 0, 0, 0, 0, 0, 0, 0]
  | .F32 => [0, 0, 0, 0]
  | .F64 => [0, 0, 0, 0, 0, 0, 0, 0]
  | .Bool => [0]
  | .HexDynamic size => List.replicate size 0

/-! ### Expression parsing (`src/core/field_types/expr/parsers/`) -/

/-- The shared `split(',').map(trim).filter(non-empty)` of the argument
parsers. -/
def splitArgs (inner : String) : List String :=
  ((strSplitChar ',' inner).map strTrim).filter (fun p => !p.isEmpty)

/-- Rust `parse_float_random`: two `f64` literals, `min ≤ max` under the float
ordering (`min > max` rejected). -/
def parse_float_random (fc : FloatCodec) (inner : String) : Except String DefaultExpr :=
  match splitArgs inner with
  | [p0, p1] =>
    match fc.parse64 p0 with
    | none => .error "Invalid float min"
    | some mn =>
      match fc.parse64 p1 with
      | none => .error "Invalid float max"
      | some mx =>
        if fc.gt64 mn mx then .error "rand: min must be <= max"
        else .ok (.RandFloat mn mx)
  | _ => .error "rand(min,max) requires two float args"

/-- Rust `parse_int_random`: two `i128` literals with `min ≤ max`. -/
def parse_int_random (inner : String) : Except String DefaultExpr :=
  match splitArgs inner with
  | [p0, p1] =>
    match rustParseSigned (-(2 ^ 127)) (2 ^ 127 - 1) p0 with
    | none => .error "Invalid int min"
    | some mn =>
      match rustParseSigned (-(2 ^ 127)) (2 ^ 127 - 1) p1 with
      | none => .error "Invalid int max"
      | some mx =>
        if mn > mx then .error "rand: min must be <= max"
        else .ok (.RandInt mn mx)
  | _ => .error "rand(min,max) requires two integer args"

/-- Rust `parse_uint_random`: two `u128` literals with `min ≤ max`. -/
def parse_uint_random (inner : String) : Except String DefaultExpr :=
  match splitArgs inner with
  | [p0, p1] =>
    match rustParseUnsigned (2 ^ 128 - 1) p0 with
    | none => .error "Invalid uint min"
    | some mn =>
      match rustParseUnsigned (2 ^ 128 - 1) p1 with
      | none => .error "Invalid uint max"
      | some mx =>
        if mn > mx then .error "rand: min must be <= max"
        else .ok (.RandUint mn mx)
  | _ => .error "rand(min,max) requires two integer args"

/-- Rust `parse_hex_random`: two hex numerals, `min ≤ max`, and the range must
fit in `size` bytes unless `size ≥ 16`. -/
def parse_hex_random (inner : String) (size : Nat) : Except String DefaultExpr :=
  match splitArgs inner with
  | [p0, p1] =>
    match parse_hex_u128 p0 with
    | .error e => .error e
    | .ok mn =>
      match parse_hex_u128 p1 with
      | .error e => .error e
      | .ok mx =>
        if mn > mx then .error "rand: min must be <= max"
        else
          let max_allowed := if size ≥ 16 then 2 ^ 128 - 1 else 2 ^ (size * 8) - 1
          if mx > max_allowed then
            .error ("hex rand range exceeds size " ++ toString size ++ " bytes")
          else .ok (.RandHex mn mx size)
  | _ => .error "rand(min,max) requires two hex args"

/-- Rust `parse_random_expr`: argument shapes determined by the data-type
family; bool takes no argument. -/
def parse_random_expr (fc : FloatCodec) (inner : String) (data_type : FieldDataType) :
    Except String DefaultExpr :=
  match data_type with
  | .Bool =>
    if !(strTrim inner).isEmpty then .error "bool rand() should not have arguments"
    else .ok .RandBool
  | .F32 | .F64 => parse_float_random fc inner
  | .I8 | .I16 | .I32 | .I64 => parse_int_random inner
  | .U8 | .U16 | .U32 | .U64 => parse_uint_random inner
  | .HexDynamic size => parse_hex_random inner size

/-- Rust `parse_loop_expr`: at least two non-empty comma-separated items. -/
def parse_loop_expr (inner : String) : Except String DefaultExpr :=
  let items := splitArgs inner
  if items.length < 2 then .error "loop requires at least two values"
  else .ok (.Loop items)

/-- Rust `parse_switch_condition`: signed integer first (positive = absolute,
negative = relative, zero = error); otherwise a `start-end` range whose
dash is at offset > 0. -/
def parse_switch_condition (condition_str : String) : Except String SwitchCondition :=
  match rustParseSigned (-(2 ^ 31)) (2 ^ 31 - 1) condition_str with
  | some num =>
    if num > 0 then .ok (.Absolute num.toNat)
    else if num < 0 then .ok (.Relative num)
    else .error "Position cannot be 0, use positive numbers (1-based) or negative numbers (-1 for last)"
  | none =>
    match splitFirst '-' condition_str.toList with
    | some (before, after) =>
      if before.length > 0 then
        match rustParseUnsigned (2 ^ 64 - 1) (String.mk before) with
        | none => .error ("Invalid range start: \x27" ++ String.mk before ++ "\x27")
        | some startPos =>
          match rustParseUnsigned (2 ^ 64 - 1) (String.mk after) with
          | none => .error ("Invalid range end: \x27" ++ String.mk after ++ "\x27")
          | some endPos =>
            if startPos = 0 ∨ endPos = 0 then .error "Range positions must start from 1"
            else if startPos > endPos then .error "Range start must be <= end"
            else .ok (.Range startPos endPos)
      else .error ("Invalid condition format: \x27" ++ condition_str ++ "\x27")
    | none => .error ("Invalid condition format: \x27" ++ condition_str ++ "\x27")

/-- One `condition:value` rule of a switch expression. -/
def parse_switch_rule (rule_str : String) : Except String SwitchRule :=
  match strSplitChar ':' rule_str with
  | [c, v] =>
    match parse_switch_condition (strTrim c) with
    | .error e => .error e
    | .ok condition => .ok ⟨condition, strTrim v⟩
  | _ =>
    .error ("Invalid switch rule format: \x27" ++ rule_str ++
      "\x27, expected \x27condition:value\x27")

/-- The rule-collection loop of `parse_switch_expr`. -/
def parse_switch_rule_list : List String → Except String (List SwitchRule)
  | [] => .ok []
  | r :: rest =>
    match parse_switch_rule r with
    | .error e => .error e
    | .ok rule => (parse_switch_rule_list rest).map (fun tl => rule :: tl)

/-- Rust `parse_switch_expr`: `switch(default, cond1:val1, ...)` with at least
one rule. -/
def parse_switch_expr (inner : String) : Except String DefaultExpr :=
  match splitArgs inner with
  | [] => .error "switch requires at least default value and one rule"
  | [_] => .error "switch requires at least default value and one rule"
  | dv :: rest =>
    (parse_switch_rule_list rest).map (fun rules => .Switch dv rules)

/-- Rust `DefaultExpr::parse`: dispatch on the `rand(`/`loop(`/`switch(`
prefixes (each requiring the trailing `)`), literal otherwise. -/
def DefaultExpr.parse (fc : FloatCodec) (expr : String) (data_type : FieldDataType) :
    Except String DefaultExpr :=
  let e := strTrim expr
  match strStripLead e "rand(" with
  | some inner =>
    match strStripTail inner ')' with
    | some core => parse_random_expr fc core data_type
    | none => .error "rand(...) missing \x27)\x27"
  | none =>
    match strStripLead e "loop(" with
    | some inner =>
      match strStripTail inner ')' with
      | some core => parse_loop_expr core
      | none => .error "loop(...) missing \x27)\x27"
    | none =>
      match strStripLead e "switch(" with
      | some inner =>
        match strStripTail inner ')' with
        | some core => parse_switch_expr core
        | none => .error "switch(...) missing \x27)\x27"
      | none => .ok (.Literal e)

/-! ### Type-string parsing (`src/core/field_types/types.rs`) -/

/-- The base-type arm of `parse_type_and_default` (the `match base`). -/
def parse_base_type (base : String) : Except String FieldDataType :=
  if base = "i8" then .ok .I8
  else if base = "i16" then .ok .I16
  else if base = "i32" then .ok .I32
  else if base = "i64" then .ok .I64
  else if base = "u8" then .ok .U8
  else if base = "u16" then .ok .U16
  else if base = "u32" then .ok .U32
  else if base = "u64" then .ok .U64
  else if base = "f32" then .ok .F32
  else if base = "f64" then .ok .F64
  else if base = "bool" then .ok .Bool
  else if strStartsWith base "hex_" then
    let size_str := String.mk (base.toList.drop 4)
    match rustParseUnsigned (2 ^ 64 - 1) size_str with
    | some size => .ok (.HexDynamic size)
    | none => .error ("Invalid hex size: " ++ size_str)
  else if base = "hex" then .ok (.HexDynamic 1)
  else .error ("Unknown data type: " ++ base)

/-- The `final_ty` post-processing of `parse_type_and_default`: a hex type
of size 1 with a literal default is re-sized from the literal's parsed hex
bytes (when they parse). -/
def reconcile_hex_type (base_ty : FieldDataType) (default_expr : Option DefaultExpr) :
    FieldDataType :=
  match base_ty, default_expr with
  | .HexDynamic size, some (.Literal s) =>
    if size = 1 then
      match parse_hex_string s with
      | .ok bytes => .HexDynamic bytes.length
      | .error _ => .HexDynamic size
    else .HexDynamic size
  | _, _ => base_ty

/-- Rust `FieldDataType::parse_type_and_default`: split `base[=expr]` at the
FIRST `=`, parse the base tag, parse the default expression when present,
then reconcile the hex size. -/
def parse_type_and_default (fc : FloatCodec) (type_str : String) :
    Except String (FieldDataType × Option DefaultExpr) :=
  let s := strTrim type_str
  let pieces :=
    match splitFirst '=' s.toList with
    | some (b, rest) => (strTrim (String.mk b), some (strTrim (String.mk rest)))
    | none => (s, (none : Option String))
  match parse_base_type pieces.1 with
  | .error e => .error e
  | .ok base_ty =>
    match pieces.2 with
    | some expr =>
      match DefaultExpr.parse fc expr base_ty with
      | .error e => .error e
      | .ok de => .ok (reconcile_hex_type base_ty (some de), some de)
    | none => .ok (reconcile_hex_type base_ty none, none)

/-! ### Message runtime fields (`src/app/config/message_types.rs`) -/

/-- Rust `MessageField`: the configured name/type/editable triple. -/
structure MessageField where
  name : String
  field_type : String
  editable : Bool
  deriving DecidableEq, Repr

/-- Rust `FieldValue`: runtime field state used by packet generation. -/
structure FieldValue where
  name : String
  field_type : String
  current_value : String
  editable : Bool
  parsed_type : Option FieldDataType
  default_expr : Option DefaultExpr
  deriving DecidableEq, Repr

/-- Rust `get_type_default_value`: fallback default string keyed on the raw
type string. -/
def get_type_default_value (field_type : String) : String :=
  if field_type = "i8" ∨ field_type = "i16" ∨ field_type = "i32" ∨ field_type = "i64" then "0"
  else if field_type = "u8" ∨ field_type = "u16" ∨ field_type = "u32" ∨ field_type = "u64" then "0"
  else if field_type = "f32" then "0.0"
  else if field_type = "f64" then "0.0"
  else if field_type = "bool" then "false"
  else if field_type = "hex" then "0x00"
  else if strStartsWith field_type "hex_" then "0x00"
  else ""

/-- Rust `get_type_default_value_from_parsed`: default string keyed on the
parsed data type. -/
def get_type_default_value_from_parsed (data_type : FieldDataType) : String :=
  match data_type with
  | .I8 | .I16 | .I32 | .I64 => "0"
  | .U8 | .U16 | .U32 | .U64 => "0"
  | .F32 => "0.0"
  | .F64 => "0.0"
  | .Bool => "false"
  | .HexDynamic _ => "0x00"

/-- Rust `FieldValue::from_field`: parse the type string (parse failure yields
`parsed_type = none` with a warning only); the current value is the text
after the first `=`, or a type-derived default string. -/
def FieldValue.from_field (fc : FloatCodec) (field : MessageField) : FieldValue :=
  let parsed :=
    match parse_type_and_default fc field.field_type with
    | .ok (data_type, e) => (some data_type, e)
    | .error _ => ((none : Option FieldDataType), (none : Option DefaultExpr))
  let current_value :=
    match splitFirst '=' field.field_type.toList with
    | some (_, rest) => String.mk rest
    | none =>
      match parsed.1 with
      | some data_type => get_type_default_value_from_parsed data_type
      | none => get_type_default_value field.field_type
  { name := field.name
    field_type := field.field_type
    current_value := current_value
    editable := field.editable
    parsed_type := parsed.1
    default_expr := parsed.2 }

/-- Rust `FieldValue::has_function_expression`: the raw type string contains a
`rand(`/`loop(`/`switch(` call. -/
def FieldValue.has_function_expression (f : FieldValue) : Bool :=
  strContainsSub f.field_type "rand(" || strContainsSub f.field_type "loop(" ||
    strContainsSub f.field_type "switch("

/-- Rust `FieldValue::should_allow_input`. -/
def FieldValue.should_allow_input (f : FieldValue) : Bool :=
  f.editable && !f.has_function_expression

/-- Rust `FieldValue::to_bytes`: user-supplied value (when non-empty and input
is allowed) through the codec; otherwise the default expression; otherwise
the type's zero default; fields with an unparsed type yield `Ok([])`. -/
def FieldValue.to_bytes (f : FieldValue) (fc : FloatCodec) (rs : RandSample)
    (packet_index : Nat) (total_packets : Option Nat) : Except AppError (List Nat) :=
  match f.parsed_type with
  | some data_type =>
    let value := strTrim f.current_value
    if !value.isEmpty && f.should_allow_input then
      parse_field_value_by_type fc data_type value
    else
      match f.default_expr with
      | some expr => expr.evaluate fc rs data_type packet_index total_packets
      | none => .ok data_type.default_value
  | none => .ok []

/-- The field loop of `MessageRuntimeState::generate_packet`: extend the
accumulated packet with each field's bytes, aborting on the first error
(the `?` operator). -/
def generate_packet_loop (fc : FloatCodec) (rs : RandSample) (packet_index : Nat)
    (total_packets : Option Nat) (packet_data : List Nat) :
    List FieldValue → Except AppError (List Nat)
  | [] => .ok packet_data
  | f :: rest =>
    match f.to_bytes fc rs packet_index total_packets with
    | .ok field_bytes =>
      generate_packet_loop fc rs packet_index total_packets (packet_data ++ field_bytes) rest
    | .error e => .error e

/-- Rust `MessageRuntimeState::generate_packet` over the message's field
values. -/
def generate_packet (fc : FloatCodec) (rs : RandSample) (field_values : List FieldValue)
    (packet_index : Nat) (total_packets : Option Nat) : Except AppError (List Nat) :=
  generate_packet_loop fc rs packet_index total_packets [] field_values

/-! ### Scheduler auto-stop and transfer state
(`src/core/services/transfer_service.rs`, `src/core/network/mod.rs`) -/

/-- Rust `TransferState`: exactly the three variants of the source enum. -/
inductive TransferState
  | Idle
  | Running
  | Error (msg : String)
  deriving DecidableEq, Repr

/-- The auto-stop predicate of `run_message_sender`, over
`(packet_count, packets_emitted)` pairs (the runtime messages zipped with
their counters): false when no message is limited, otherwise every limited
message's counter must have reached its limit. -/
def all_limited_messages_complete (msgs : List (Nat × Nat)) : Bool :=
  let messages_with_limit := msgs.filter (fun m => decide (m.1 > 0))
  if messages_with_limit.isEmpty then false
  else messages_with_limit.all (fun m => decide (m.2 ≥ m.1))

/-- The loop-exit decision of one scheduler iteration: an external
`Idle`/`Error` state breaks first, then the auto-stop predicate. -/
def sender_loop_exits (state : TransferState) (msgs : List (Nat × Nat)) : Bool :=
  match state with
  | .Idle => true
  | .Error _ => true
  | .Running => all_limited_messages_complete msgs

/-- The state update after the send loop ends (lines 336-349 of
`transfer_service.rs`): a still-`Running` state becomes `Idle`; any other
state is left unchanged. -/
def clean_exit_transition (state : TransferState) : TransferState :=
  match state with
  | .Running => .Idle
  | s => s

/-- Rust `TransferService::stop_transfer`: external controllers force `Idle`. -/
def stop_transfer_transition (_state : TransferState) : TransferState :=
  .Idle

/-! ### Network validation (`src/app/config/types.rs`, `src/utils/helpers.rs`) -/

/-- Rust `NetworkType`. -/
inductive NetworkType
  | Unicast
  | Multicast
  | Broadcast
  deriving DecidableEq, Repr

/-- Rust `std::net::IpAddr`, with the v4 octets and v6 16-bit segments. -/
inductive IpAddr
  | V4 (a b c d : Nat)
  | V6 (s0 s1 s2 s3 s4 s5 s6 s7 : Nat)
  deriving DecidableEq, Repr

/-- Rust `is_broadcast_address`: `255.255.255.255` or any v4 ending in 255;
never true for v6. -/
def is_broadcast_address : IpAddr → Bool
  | .V4 a b c d => (a == 255 && b == 255 && c == 255 && d == 255) || d == 255
  | .V6 _ _ _ _ _ _ _ _ => false

/-- Rust `is_multicast_address`: `Ipv4Addr::is_multicast` (first octet in
`224..=239`) or `Ipv6Addr::is_multicast` (`segments()[0] & 0xff00 ==
0xff00`). -/
def is_multicast_address : IpAddr → Bool
  | .V4 a _ _ _ => decide (224 ≤ a) && decide (a ≤ 239)
  | .V6 s0 _ _ _ _ _ _ _ => (s0 &&& 0xff00) == 0xff00

/-- Display form used in error messages (v6 without RFC 5952 zero
compression; no claim inspects this text). -/
def ipDisplay : IpAddr → String
  | .V4 a b c d => toString a ++ "." ++ toString b ++ "." ++ toString c ++ "." ++ toString d
  | .V6 s0 s1 s2 s3 s4 s5 s6 s7 =>
    String.intercalate ":" ([s0, s1, s2, s3, s4, s5, s6, s7].map
      (fun s => String.mk (Nat.toDigits 16 s)))

/-- Rust `validate_network_config_by_ip`: Broadcast and Unicast at most warn;
Multicast rejects non-multicast addresses with a validation error. -/
def validate_network_config_by_ip (ip_addr : IpAddr) (network_type : NetworkType) :
    Except AppError Unit :=
  match network_type with
  | .Broadcast => .ok ()
  | .Multicast =>
    if !is_multicast_address ip_addr then
      .error (.validationErr "Address"
        ("Address " ++ ipDisplay ip_addr ++ " is not a valid multicast address"))
    else .ok ()
  | .Unicast => .ok ()

/-! ### Spec-side definitions (from the specification's wording, for
comparison against the embedded code) -/

/-- The spec's match predicate for switch conditions at 1-based position
`p`: `Absolute(k)` iff `p == k`; `Relative(o)` iff `total_packets =
Some(t)`, `t > 0`, `p == t + o + 1`; `Range(a,b)` iff `a ≤ p ≤ b`. -/
def switchSpecMatches (p : Nat) (total_packets : Option Nat) : SwitchCondition → Bool
  | .Absolute k => p == k
  | .Relative o =>
    match total_packets with
    | some t => decide (t > 0) && ((p : Int) == (t : Int) + o + 1)
    | none => false
  | .Range a b => decide (a ≤ p) && decide (p ≤ b)

/-- Spec P1's width function: 1/2/4/8 bytes for the numeric kinds, one
byte for bool, `n` for `Hex(n)`. -/
def width : FieldDataType → Nat
  | .I8 | .U8 | .Bool => 1
  | .I16 | .U16 => 2
  | .I32 | .U32 | .F32 => 4
  | .I64 | .U64 | .F64 => 8
  | .HexDynamic n => n

/-- Decidable equality for `Except`, for evaluating concrete runs. -/
instance instDecEqExcept {ε α : Type} [DecidableEq ε] [DecidableEq α] :
    DecidableEq (Except ε α) := fun x y =>
  match x, y with
  | .ok a, .ok b => if h : a = b then .isTrue (by rw [h]) else .isFalse (by simp [h])
  | .error a, .error b => if h : a = b then .isTrue (by rw [h]) else .isFalse (by simp [h])
  | .ok _, .error _ => .isFalse (by simp)
  | .error _, .ok _ => .isFalse (by simp)

/-- A fixed trivial float codec for concrete instantiations (the hex,
integer and bool paths never consult it). -/
def fcW : FloatCodec := ⟨fun _ => none, fun _ => none, fun _ _ => false⟩

/-- A fixed random-sample record for concrete instantiations. -/
def rsW : RandSample := ⟨0, 0, 0, 0, false, 0⟩

/-- The byte output of a successful field conversion (`[]` on error);
used to state the concatenation shape of packet assembly. -/
def okBytes : Except AppError (List Nat) → List Nat
  | .ok bs => bs
  | .error _ => []

/-! ### Theorems -/

/-- Values already inside the `i64` range are fixed by the wrap. -/
theorem wrapI64_eq_self (v : Int) (h1 : -(2 ^ 63) ≤ v) (h2 : v < 2 ^ 63) :
    wrapI64 v = v := by
  rw [wrapI64, Int.emod_eq_of_lt (by omega) (by omega)]
  omega

/-- Pointwise-equal predicates find the same first element. -/
theorem find?_congr_mem {α : Type} (p q : α → Bool) :
    ∀ l : List α, (∀ a ∈ l, p a = q a) → l.find? p = l.find? q := by
  intro l
  induction l with
  | nil => intro _; rfl
  | cons a as ih =>
    intro h
    rw [List.find?, List.find?, h a (by simp)]
    cases q a with
    | true => rfl
    | false => exact ih (fun x hx => h x (by simp [hx]))

/-- Below `2^63` (and with the offset in the parser-guaranteed negative
`i32` range) the wrapping casts are exact and the code's matcher agrees
with the spec's predicate. -/
theorem matches_condition_eq_spec (c : SwitchCondition) (i : Nat) (tp : Option Nat)
    (hp : i + 1 < 2 ^ 63)
    (ht : ∀ t, tp = some t → t < 2 ^ 63)
    (ho : ∀ o : Int, c = .Relative o → -(2 ^ 31) ≤ o ∧ o < 0) :
    matches_condition c (i + 1) tp = switchSpecMatches (i + 1) tp c := by
  cases c with
  | Absolute k => rfl
  | Range a b => rfl
  | Relative o =>
    obtain ⟨ho1, ho2⟩ := ho o rfl
    cases tp with
    | none => rfl
    | some t =>
      have htt := ht t rfl
      by_cases ht0 : t = 0
      · subst ht0
        simp [matches_condition, switchSpecMatches]
      · simp only [matches_condition, switchSpecMatches, if_neg ht0]
        have hwt : wrapI64 (t : Int) = (t : Int) := by
          apply wrapI64_eq_self <;> omega
        rw [hwt]
        have hsum : wrapI64 ((t : Int) + o + 1) = (t : Int) + o + 1 := by
          apply wrapI64_eq_self <;> omega
        rw [hsum]
        have hwp : wrapI64 ((i + 1 : Nat) : Int) = ((i + 1 : Nat) : Int) := by
          apply wrapI64_eq_self <;> omega
        rw [hwp]
        have ht' : decide (t > 0) = true := by
          simp [Nat.pos_of_ne_zero ht0]
        rw [ht', Bool.true_and]
        by_cases hx : ((i + 1 : Nat) : Int) = (t : Int) + o + 1
        · have hpos : decide ((t : Int) + o + 1 > 0) = true := by
            rw [decide_eq_true_eq, ← hx]
            omega
          rw [hpos, Bool.true_and]
        · have hb : (((i + 1 : Nat) : Int) == (t : Int) + o + 1) = false :=
            beq_eq_false_iff_ne.mpr hx
          rw [hb, Bool.and_false]

/-- The rule loop returns the first rule accepted by the code's matcher,
falling back to the default value. -/
theorem evaluate_switch_rules_eq_find (fc : FloatCodec) (dt : FieldDataType) (dv : String)
    (p : Nat) (tp : Option Nat) (rules : List SwitchRule) :
    evaluate_switch_rules fc dt dv p tp rules =
      match rules.find? (fun r => matches_condition r.condition p tp) with
      | some r => parse_field_value_by_type fc dt r.value
      | none => parse_field_value_by_type fc dt dv := by
  induction rules with
  | nil => rfl
  | cons r rest ih =>
    rw [evaluate_switch_rules, List.find?]
    cases h : matches_condition r.condition p tp with
    | true => simp [h]
    | false => simp [h, ih]

/-- Counterexample for C1: at the representable inputs
`total_packets = Some(2^63 + 5)` and `packet_index = 2^63 + 5`
(`row_index = 2^63 + 4`, both within `u64`/`usize`), the wrapping
`as i64` casts make the code REJECT the `Relative(-1)` rule that the
claim's predicate (`p == t + o + 1` with `t > 0`) accepts, so evaluation
falls through to the default value instead of the rule's value. -/
theorem relative_wrap_rejects_large_counterexample :
    matches_condition (.Relative (-1)) (2 ^ 63 + 5) (some (2 ^ 63 + 5)) = false
    ∧ switchSpecMatches (2 ^ 63 + 5) (some (2 ^ 63 + 5)) (.Relative (-1)) = true
    ∧ evaluate_switch fcW "5" [⟨.Relative (-1), "9"⟩] (2 ^ 63 + 4) (some (2 ^ 63 + 5)) .U8 =
        .ok [5] := by
  decide

/-- C1 (amended): switch evaluation uses the 1-based position `p = i + 1`
and returns the codec-parsed value of the first matching rule, falling
back to the codec-parsed default; `Absolute(k)` (`p == k`) and
`Range(a,b)` (`a ≤ p ≤ b`) are exact at ALL inputs, and `Relative` rules
never match when `total_packets` is `None` or `Some(0)`.  The
`Relative(o)` test is computed in wrapping `i64` arithmetic
(`target = (t as i64) + o + 1`, matched iff `target > 0` and
`(p as i64) == target`), which coincides with the spec's
`p == t + o + 1 ∧ t > 0` whenever `p < 2^63` and `t < 2^63` — all
practically reachable values — with `o` in the parser-guaranteed negative
`i32` range. -/
theorem switch_first_matching_rule_wins (fc : FloatCodec) (d : String)
    (rules : List SwitchRule) (i : Nat) (tp : Option Nat) (dt : FieldDataType)
    (hp : i + 1 < 2 ^ 63)
    (ht : ∀ t, tp = some t → t < 2 ^ 63)
    (ho : ∀ r ∈ rules, ∀ o : Int, r.condition = .Relative o → -(2 ^ 31) ≤ o ∧ o < 0) :
    (evaluate_switch fc d rules i tp dt =
      match rules.find? (fun r => switchSpecMatches (i + 1) tp r.condition) with
      | some r => parse_field_value_by_type fc dt r.value
      | none => parse_field_value_by_type fc dt d)
    ∧ (∀ o : Int, tp = none ∨ tp = some 0 →
        switchSpecMatches (i + 1) tp (.Relative o) = false)
    ∧ (∀ k, switchSpecMatches (i + 1) tp (.Absolute k) = (i + 1 == k))
    ∧ (∀ a b, switchSpecMatches (i + 1) tp (.Range a b) =
        (decide (a ≤ i + 1) && decide (i + 1 ≤ b))) := by
  refine ⟨?_, ?_, fun _ => rfl, fun _ _ => rfl⟩
  · rw [evaluate_switch, evaluate_switch_rules_eq_find,
      find?_congr_mem (fun r => matches_condition r.condition (i + 1) tp)
        (fun r => switchSpecMatches (i + 1) tp r.condition) rules
        (fun r hr => matches_condition_eq_spec r.condition i tp hp ht
          (fun o hro => ho r hr o hro))]
  · intro o h
    rcases h with h | h <;> subst h <;> simp [switchSpecMatches]

/-- Witness for C1 at a concrete switch: `Relative(-1)` fires on the last
packet of one, and fails when `total_packets = Some(0)`. -/
theorem switch_first_matching_rule_wins_witness :
    (evaluate_switch fcW "5" [⟨.Relative (-1), "9"⟩] 0 (some 1) .U8 = .ok [9])
    ∧ switchSpecMatches 1 (some 0) (.Relative (-1)) = false := by
  have hrule : ∀ r ∈ [(⟨.Relative (-1), "9"⟩ : SwitchRule)], ∀ o : Int,
      r.condition = .Relative o → -(2 ^ 31) ≤ o ∧ o < 0 := by
    intro r hr o hc
    rw [List.mem_singleton] at hr
    subst hr
    injection hc with h
    subst h
    exact ⟨by decide, by decide⟩
  have h := switch_first_matching_rule_wins fcW "5" [⟨.Relative (-1), "9"⟩] 0 (some 1) .U8
    (by decide) (by intro t h; injection h with h; omega) hrule
  refine ⟨h.1.trans (by decide), ?_⟩
  have h0 := switch_first_matching_rule_wins fcW "5" [⟨.Relative (-1), "9"⟩] 0 (some 0) .U8
    (by decide) (by intro t h; injection h with h; omega) hrule
  exact h0.2.1 (-1) (Or.inr rfl)

/-- Little-endian encodings always have exactly `width` bytes. -/
theorem toLeBytes_length (w v : Nat) : (toLeBytes w v).length = w := by
  simp [toLeBytes]

/-- Signed encodings always have exactly `width` bytes. -/
theorem intToLeBytes_length (w : Nat) (v : Int) : (intToLeBytes w v).length = w := by
  simp [intToLeBytes, toLeBytes_length]

/-- Inverting a successful `Except.map`. -/
theorem except_map_ok {ε α β : Type} (f : α → β) (x : Except ε α) (b : β)
    (h : x.map f = .ok b) : ∃ a, x = .ok a ∧ b = f a := by
  cases x with
  | ok a =>
    refine ⟨a, rfl, ?_⟩
    simpa [Except.map] using h.symm
  | error e => simp [Except.map] at h

/-- C2: every successful value-to-bytes conversion — codec parsing of a
value string, literal evaluation, the type's zero default, and the random
evaluators — produces exactly `width(t)` bytes (1/2/4/8 for the numeric
kinds, 1 for bool, `n` for `Hex(n)`). -/
theorem encoding_width_invariant (fc : FloatCodec) (rs : RandSample) (dt : FieldDataType) :
    (∀ v bs, parse_field_value_by_type fc dt v = .ok bs → bs.length = width dt)
    ∧ (∀ s bs, evaluate_literal fc s dt = .ok bs → bs.length = width dt)
    ∧ dt.default_value.length = width dt
    ∧ (∀ mn mx bsz bs, evaluate_rand_hex rs mn mx bsz dt = .ok bs → bs.length = width dt)
    ∧ (∀ mn mx bs, evaluate_rand_int rs mn mx dt = .ok bs → bs.length = width dt)
    ∧ (∀ mn mx bs, evaluate_rand_uint rs mn mx dt = .ok bs → bs.length = width dt)
    ∧ (∀ mn mx bs, evaluate_rand_float rs mn mx dt = .ok bs → bs.length = width dt)
    ∧ (∀ bs, evaluate_rand_bool rs = .ok bs → bs.length = 1) := by
  refine ⟨?_, ?_, ?_, ?_, ?_, ?_, ?_, ?_⟩
  · intro v bs h
    cases dt <;> simp only [parse_field_value_by_type] at h
    case I8 | I16 | I32 | I64 =>
      obtain ⟨a, _, hb⟩ := except_map_ok _ _ _ h
      simp [hb, intToLeBytes_length, width]
    case U8 | U16 | U32 | U64 =>
      obtain ⟨a, _, hb⟩ := except_map_ok _ _ _ h
      simp [hb, toLeBytes_length, width]
    case F32 | F64 =>
      obtain ⟨a, _, hb⟩ := except_map_ok _ _ _ h
      simp [hb, toLeBytes_length, width]
    case Bool =>
      obtain ⟨a, _, hb⟩ := except_map_ok _ _ _ h
      simp [hb, width]
    case HexDynamic size =>
      split at h
      · exact absurd h (by simp)
      · split at h
        · exact absurd h (by simp)
        · simp only [Except.ok.injEq] at h
          subst h
          simp_all [width]
  · intro s bs h
    cases dt <;> simp only [evaluate_literal] at h
    case I8 | I16 | I32 | I64 =>
      obtain ⟨a, _, hb⟩ := except_map_ok _ _ _ h
      simp [hb, intToLeBytes_length, width]
    case U8 | U16 | U32 | U64 =>
      obtain ⟨a, _, hb⟩ := except_map_ok _ _ _ h
      simp [hb, toLeBytes_length, width]
    case F32 | F64 =>
      obtain ⟨a, _, hb⟩ := except_map_ok _ _ _ h
      simp [hb, toLeBytes_length, width]
    case Bool =>
      obtain ⟨a, _, hb⟩ := except_map_ok _ _ _ h
      simp [hb, width]
    case HexDynamic size =>
      split at h
      · exact absurd h (by simp)
      · split at h
        · exact absurd h (by simp)
        · simp only [Except.ok.injEq] at h
          subst h
          simp_all [width]
  · cases dt <;> simp [FieldDataType.default_value, width]
  · intro mn mx bsz bs h
    cases dt <;> simp only [evaluate_rand_hex] at h
    case HexDynamic size =>
      split at h
      · exact absurd h (by simp)
      · simp only [Except.ok.injEq] at h
        subst h
        simp [toLeBytes_length, width]
    all_goals exact absurd h (by simp)
  · intro mn mx bs h
    cases dt <;> simp only [evaluate_rand_int] at h
    case I8 | I16 | I32 | I64 =>
      simp only [Except.ok.injEq] at h
      subst h
      simp [intToLeBytes_length, width]
    all_goals exact absurd h (by simp)
  · intro mn mx bs h
    cases dt <;> simp only [evaluate_rand_uint] at h
    case U8 | U16 | U32 | U64 =>
      simp only [Except.ok.injEq] at h
      subst h
      simp [toLeBytes_length, width]
    all_goals exact absurd h (by simp)
  · intro mn mx bs h
    cases dt <;> simp only [evaluate_rand_float] at h
    case F32 | F64 =>
      simp only [Except.ok.injEq] at h
      subst h
      simp [toLeBytes_length, width]
    all_goals exact absurd h (by simp)
  · intro bs h
    simp only [evaluate_rand_bool, Except.ok.injEq] at h
    subst h
    simp

/-- Witness for C2: a `u8` literal and a two-byte hex value hit their
exact widths. -/
theorem encoding_width_invariant_witness :
    (parse_field_value_by_type fcW .U8 "7" = .ok [7]) ∧ ([7] : List Nat).length = width .U8
    ∧ (parse_field_value_by_type fcW (.HexDynamic 2) "0x1122" = .ok [17, 34])
    ∧ ([17, 34] : List Nat).length = width (.HexDynamic 2) := by
  refine ⟨by decide, ?_, by decide, ?_⟩
  · exact (encoding_width_invariant fcW rsW .U8).1 "7" [7] (by decide)
  · exact (encoding_width_invariant fcW rsW (.HexDynamic 2)).1 "0x1122" [17, 34] (by decide)

/-- The assembly loop on all-successful fields appends each field's bytes
to the accumulator in order. -/
theorem generate_packet_loop_all_ok (fc : FloatCodec) (rs : RandSample) (i : Nat)
    (tp : Option Nat) :
    ∀ (fields : List FieldValue) (acc : List Nat),
      (∀ f ∈ fields, (f.to_bytes fc rs i tp).isOk = true) →
      generate_packet_loop fc rs i tp acc fields =
        .ok (acc ++ (fields.map (fun f => okBytes (f.to_bytes fc rs i tp))).flatten) := by
  intro fields
  induction fields with
  | nil => intro acc _; simp [generate_packet_loop]
  | cons f rest ih =>
    intro acc h
    have hf := h f (by simp)
    cases hfb : f.to_bytes fc rs i tp with
    | ok b =>
      simp only [generate_packet_loop, hfb]
      rw [ih (acc ++ b) (fun g hg => h g (by simp [hg]))]
      simp [hfb, okBytes]
    | error e => rw [hfb] at hf; simp [Except.isOk, Except.toBool] at hf

/-- C3: when every field of a message converts successfully at a given
packet index and total, `generate_packet` returns exactly the
concatenation, in declared field order, of the per-field byte outputs —
no padding or alignment is inserted. -/
theorem packet_concatenates_fields_in_order (fc : FloatCodec) (rs : RandSample)
    (fields : List FieldValue) (i : Nat) (tp : Option Nat)
    (h : ∀ f ∈ fields, (f.to_bytes fc rs i tp).isOk = true) :
    generate_packet fc rs fields i tp =
      .ok ((fields.map (fun f => okBytes (f.to_bytes fc rs i tp))).flatten) := by
  rw [generate_packet, generate_packet_loop_all_ok fc rs i tp fields [] h]
  simp

/-- A concrete editable `u8` field with user value `7`. -/
def fvU8 : FieldValue :=
  ⟨"f1", "u8", "7", true, some .U8, none⟩

/-- A concrete editable two-byte hex field with user value `0x1122`. -/
def fvHex2 : FieldValue :=
  ⟨"f2", "hex_2", "0x1122", true, some (.HexDynamic 2), none⟩

/-- Witness for C3: the two concrete fields concatenate to
`[7, 17, 34]`. -/
theorem packet_concatenates_fields_in_order_witness :
    generate_packet fcW rsW [fvU8, fvHex2] 0 none = .ok [7, 17, 34] := by
  have h := packet_concatenates_fields_in_order fcW rsW [fvU8, fvHex2] 0 none (by decide)
  exact h.trans (by decide)

/-- The assembly loop propagates the FIRST field error verbatim past any
prefix of successful fields. -/
theorem generate_packet_loop_first_error (fc : FloatCodec) (rs : RandSample) (i : Nat)
    (tp : Option Nat) (f : FieldValue) (fields₂ : List FieldValue) (e : AppError)
    (hf : f.to_bytes fc rs i tp = .error e) :
    ∀ (fields₁ : List FieldValue) (acc : List Nat),
      (∀ g ∈ fields₁, (g.to_bytes fc rs i tp).isOk = true) →
      generate_packet_loop fc rs i tp acc (fields₁ ++ f :: fields₂) = .error e := by
  intro fields₁
  induction fields₁ with
  | nil => intro acc _; simp [generate_packet_loop, hf]
  | cons g rest ih =>
    intro acc h
    have hg := h g (by simp)
    cases hgb : g.to_bytes fc rs i tp with
    | ok b =>
      rw [List.cons_append]
      simp only [generate_packet_loop, hgb]
      exact ih (acc ++ b) (fun x hx => h x (by simp [hx]))
    | error e2 => rw [hgb] at hg; simp [Except.isOk, Except.toBool] at hg

/-- C7 (amended): when a field's conversion fails, assembly aborts and
returns the underlying error UNCHANGED — the failing field's name is not
prepended (or otherwise added) to the error. -/
theorem assembly_aborts_with_unchanged_error (fc : FloatCodec) (rs : RandSample)
    (fields₁ : List FieldValue) (f : FieldValue) (fields₂ : List FieldValue)
    (i : Nat) (tp : Option Nat) (e : AppError)
    (h₁ : ∀ g ∈ fields₁, (g.to_bytes fc rs i tp).isOk = true)
    (h₂ : f.to_bytes fc rs i tp = .error e) :
    generate_packet fc rs (fields₁ ++ f :: fields₂) i tp = .error e := by
  rw [generate_packet]
  exact generate_packet_loop_first_error fc rs i tp f fields₂ e h₂ fields₁ [] h₁

/-- A field named `fld1` whose `u16` user value `zz` cannot parse. -/
def fvBadU16 : FieldValue :=
  ⟨"fld1", "u16", "zz", true, some .U16, none⟩

/-- Counterexample for C7: assembling a message whose field `fld1` fails
returns the inner validation error exactly as produced by the field
conversion; its field slot holds the TYPE name `u16` and its message does
not start with (or contain) the field name `fld1`. -/
theorem assembly_error_not_prefixed_counterexample :
    (generate_packet fcW rsW [fvBadU16] 0 none =
      .error (invalidValueErr "u16" "zz"))
    ∧ (fvBadU16.to_bytes fcW rsW 0 none = .error (invalidValueErr "u16" "zz"))
    ∧ fvBadU16.name = "fld1"
    ∧ invalidValueErr "u16" "zz" =
        .validationErr "u16" "Invalid u16 value \x27zz\x27"
    ∧ strStartsWith "Invalid u16 value \x27zz\x27" "fld1" = false
    ∧ strContainsSub "Invalid u16 value \x27zz\x27" "fld1" = false := by
  decide

/-- Witness for C7's amended theorem at a concrete prefix and failing
field. -/
theorem assembly_aborts_with_unchanged_error_witness :
    generate_packet fcW rsW [fvU8, fvBadU16] 0 none =
      .error (invalidValueErr "u16" "zz") :=
  assembly_aborts_with_unchanged_error fcW rsW [fvU8] fvBadU16 [] 0 none
    (invalidValueErr "u16" "zz") (by decide) (by decide)

/-- The assembly loop skips a field that yields `Ok([])` without any
effect on the accumulated packet. -/
theorem generate_packet_loop_skip_empty (fc : FloatCodec) (rs : RandSample) (i : Nat)
    (tp : Option Nat) (f : FieldValue) (hf : f.to_bytes fc rs i tp = .ok []) :
    ∀ (fields₁ fields₂ : List FieldValue) (acc : List Nat),
      generate_packet_loop fc rs i tp acc (fields₁ ++ f :: fields₂) =
        generate_packet_loop fc rs i tp acc (fields₁ ++ fields₂) := by
  intro fields₁
  induction fields₁ with
  | nil =>
    intro fields₂ acc
    simp [generate_packet_loop, hf]
  | cons g rest ih =>
    intro fields₂ acc
    rw [List.cons_append, List.cons_append]
    cases hgb : g.to_bytes fc rs i tp with
    | ok b =>
      simp only [generate_packet_loop, hgb]
      exact ih fields₂ (acc ++ b)
    | error e =>
      simp only [generate_packet_loop, hgb]

/-- C10: a field whose type string failed to parse (`parsed_type = none`)
converts to `Ok([])` at EVERY packet index and total, so packet assembly
still succeeds and such a field contributes zero bytes to the payload —
inserting or removing it never changes the assembled packet. -/
theorem unparsed_field_yields_empty_bytes (fc : FloatCodec) (rs : RandSample)
    (f : FieldValue) (i : Nat) (tp : Option Nat) (h : f.parsed_type = none) :
    f.to_bytes fc rs i tp = .ok []
    ∧ ∀ fields₁ fields₂, generate_packet fc rs (fields₁ ++ f :: fields₂) i tp =
        generate_packet fc rs (fields₁ ++ fields₂) i tp := by
  have hf : f.to_bytes fc rs i tp = .ok [] := by
    rw [FieldValue.to_bytes, h]
  refine ⟨hf, ?_⟩
  intro fields₁ fields₂
  rw [generate_packet, generate_packet,
    generate_packet_loop_skip_empty fc rs i tp f hf fields₁ fields₂ []]

/-- A field whose type string `badtype` fails to parse. -/
def fvUnparsed : FieldValue :=
  ⟨"x1", "badtype", "", true, none, none⟩

/-- Witness for C10: the unparsed field yields no bytes and dropping it
from a concrete message leaves the packet unchanged. -/
theorem unparsed_field_yields_empty_bytes_witness :
    (fvUnparsed.to_bytes fcW rsW 0 none = .ok [])
    ∧ generate_packet fcW rsW ([fvU8] ++ fvUnparsed :: [fvHex2]) 0 none =
        generate_packet fcW rsW ([fvU8] ++ [fvHex2]) 0 none := by
  have h := unparsed_field_yields_empty_bytes fcW rsW fvUnparsed 0 none (by decide)
  exact ⟨h.1, h.2 [fvU8] [fvHex2]⟩

/-- Counterexample for C4: the explicitly sized short form `hex_1` is
ALSO widened — `hex_1=0x1122` parses to `Hex(2)`, not `Hex(1)`. -/
theorem hex1_literal_widens_counterexample :
    parse_type_and_default fcW "hex_1=0x1122" =
      .ok (.HexDynamic 2, some (.Literal "0x1122")) := by
  decide

/-- C4 (amended): the hex widening is keyed on the PARSED size being 1 —
it applies to both the unsized short form `hex` and the explicit `hex_1`
(which parse identically to `Hex(1)`), replacing the size by the literal's
decoded byte length when the literal parses as hex; every other size, and
every non-(hex-literal) combination, is left unchanged. -/
theorem hex_widening_keyed_on_size_one (fc : FloatCodec) (s : String) :
    (∀ bytes, parse_hex_string s = .ok bytes →
      reconcile_hex_type (.HexDynamic 1) (some (.Literal s)) = .HexDynamic bytes.length)
    ∧ (∀ e, parse_hex_string s = .error e →
      reconcile_hex_type (.HexDynamic 1) (some (.Literal s)) = .HexDynamic 1)
    ∧ (∀ n, n ≠ 1 → reconcile_hex_type (.HexDynamic n) (some (.Literal s)) = .HexDynamic n)
    ∧ (∀ bt ex, reconcile_hex_type bt ex = bt ∨
        ∃ l, ex = some (.Literal l) ∧ bt = .HexDynamic 1)
    ∧ parse_base_type "hex" = .ok (.HexDynamic 1)
    ∧ parse_base_type "hex_1" = .ok (.HexDynamic 1)
    ∧ parse_type_and_default fc "hex=0x1122" = .ok (.HexDynamic 2, some (.Literal "0x1122"))
    ∧ parse_type_and_default fc "hex_1=0x1122" = .ok (.HexDynamic 2, some (.Literal "0x1122"))
    ∧ parse_type_and_default fc "hex_4=0x1122" =
        .ok (.HexDynamic 4, some (.Literal "0x1122")) := by
  refine ⟨?_, ?_, ?_, ?_, by decide, by decide, rfl, rfl, rfl⟩
  · intro bytes hb
    simp [reconcile_hex_type, hb]
  · intro e hb
    simp [reconcile_hex_type, hb]
  · intro n hn
    simp [reconcile_hex_type, hn]
  · intro bt ex
    cases bt with
    | HexDynamic n =>
      cases ex with
      | none => exact Or.inl rfl
      | some de =>
        cases de with
        | Literal l =>
          by_cases hn : n = 1
          · subst hn; exact Or.inr ⟨l, rfl, rfl⟩
          · exact Or.inl (by simp [reconcile_hex_type, hn])
        | RandInt mn mx => exact Or.inl rfl
        | RandUint mn mx => exact Or.inl rfl
        | RandFloat mn mx => exact Or.inl rfl
        | RandBool => exact Or.inl rfl
        | RandHex mn mx bsz => exact Or.inl rfl
        | Loop items => exact Or.inl rfl
        | Switch dv rls => exact Or.inl rfl
    | I8 => exact Or.inl rfl
    | I16 => exact Or.inl rfl
    | I32 => exact Or.inl rfl
    | I64 => exact Or.inl rfl
    | U8 => exact Or.inl rfl
    | U16 => exact Or.inl rfl
    | U32 => exact Or.inl rfl
    | U64 => exact Or.inl rfl
    | F32 => exact Or.inl rfl
    | F64 => exact Or.inl rfl
    | Bool => exact Or.inl rfl

/-- Witness for C4's amended theorem at the literal `0x1122` and the
unaffected size 4. -/
theorem hex_widening_keyed_on_size_one_witness :
    (reconcile_hex_type (.HexDynamic 1) (some (.Literal "0x1122")) = .HexDynamic 2)
    ∧ reconcile_hex_type (.HexDynamic 4) (some (.Literal "0x1122")) = .HexDynamic 4 := by
  have h := hex_widening_keyed_on_size_one fcW "0x1122"
  exact ⟨(h.1 [17, 34] (by decide)).trans (by decide), h.2.2.1 4 (by decide)⟩

/-- C5: one scheduler iteration in the `Running` state auto-stops exactly
when at least one runtime message is limited (`packet_count > 0`) and
every limited message's emitted counter has reached its limit; when no
message is limited the loop never exits by auto-stop. -/
theorem auto_stop_exactly_when_all_limited_done (msgs : List (Nat × Nat)) :
    (sender_loop_exits .Running msgs = true ↔
      (∃ m ∈ msgs, 0 < m.1) ∧ ∀ m ∈ msgs, 0 < m.1 → m.1 ≤ m.2)
    ∧ ((∀ m ∈ msgs, m.1 = 0) → sender_loop_exits .Running msgs = false) := by
  have hunf : sender_loop_exits .Running msgs = all_limited_messages_complete msgs := rfl
  constructor
  · rw [hunf, all_limited_messages_complete]
    by_cases hE : (msgs.filter (fun m => decide (m.1 > 0))).isEmpty
    · simp only [hE, if_true]
      constructor
      · intro h; exact absurd h (by simp)
      · rintro ⟨⟨m, hm, hm0⟩, -⟩
        have : m ∈ msgs.filter (fun m => decide (m.1 > 0)) :=
          List.mem_filter.mpr ⟨hm, by simpa using hm0⟩
        rw [List.isEmpty_iff] at hE
        simp [hE] at this
    · simp only [hE, if_false]
      rw [List.all_eq_true]
      constructor
      · intro h
        refine ⟨?_, ?_⟩
        · rw [List.isEmpty_iff] at hE
          obtain ⟨m, hm⟩ := List.exists_mem_of_ne_nil _ hE
          have := List.mem_filter.mp hm
          exact ⟨m, this.1, by simpa using this.2⟩
        · intro m hm hm0
          have := h m (List.mem_filter.mpr ⟨hm, by simpa using hm0⟩)
          simpa using this
      · rintro ⟨-, hall⟩ m hm
        have := List.mem_filter.mp hm
        have h0 : 0 < m.1 := by simpa using this.2
        simpa using hall m this.1 h0
  · intro h
    rw [hunf, all_limited_messages_complete]
    have : msgs.filter (fun m => decide (m.1 > 0)) = [] := by
      rw [List.filter_eq_nil_iff]
      intro m hm
      simp [h m hm]
    simp [this]

/-- Witness for C5: a limited-and-done message plus an unlimited one
auto-stops; a configuration with no limited message does not. -/
theorem auto_stop_exactly_when_all_limited_done_witness :
    (sender_loop_exits .Running [(3, 3), (0, 1)] = true)
    ∧ sender_loop_exits .Running [(0, 5)] = false := by
  refine ⟨?_, (auto_stop_exactly_when_all_limited_done [(0, 5)]).2 (by decide)⟩
  exact (auto_stop_exactly_when_all_limited_done [(3, 3), (0, 1)]).1.mpr
    ⟨⟨(3, 3), by decide, by decide⟩, by decide⟩

/-- The configured field `a: u16=0x00AA` of spec example I1. -/
def mfA : MessageField := ⟨"a", "u16=0x00AA", true⟩

/-- The configured field `b: hex_2=0x1122` of spec example I1. -/
def mfB : MessageField := ⟨"b", "hex_2=0x1122", true⟩

/-- The field `a` rewritten with a decimal literal (`170 = 0x00AA`). -/
def mfA170 : MessageField := ⟨"a", "u16=170", true⟩

/-- Counterexample for C6: assembling the I1 message
`{a: u16=0x00AA, b: hex_2=0x1122}` does NOT succeed — the `u16` literal
`0x00AA` is rejected (numeric literals are parsed as plain decimal, the
`0x` prefix is not accepted), so the packet is never produced. -/
theorem i1_example_fails_counterexample :
    generate_packet fcW rsW
        [FieldValue.from_field fcW mfA, FieldValue.from_field fcW mfB] 0 (some 1) =
      .error (invalidValueErr "u16" "0x00AA") := by
  decide

/-- C6 (amended): with the numeric literal written in decimal
(`a: u16=170`, `170 = 0x00AA`), assembling one packet of
`{a: u16=170, b: hex_2=0x1122}` succeeds and yields the 4 bytes
`AA 00 11 22`: the `u16` is little-endian, while the hex field's bytes
stay in WRITTEN order (`11 22`), not byte-reversed. -/
theorem i1_example_decimal_bytes :
    generate_packet fcW rsW
        [FieldValue.from_field fcW mfA170, FieldValue.from_field fcW mfB] 0 (some 1) =
      .ok [0xAA, 0x00, 0x11, 0x22] := by
  decide

/-- Counterexample for C8: the clean-exit state update maps `Running` to
`Idle` — there is no `Completed` variant in `TransferState`, and `Idle` is
reached by the scheduler's own clean exit, not only by an external stop. -/
theorem clean_exit_reaches_idle_counterexample :
    clean_exit_transition .Running = .Idle := rfl

/-- C8 (amended): on clean exit the scheduler moves a still-`Running`
shared state to `Idle` (the enum has only `Idle`, `Running` and `Error`;
there is no `Completed`), leaves any other state unchanged, and an
external stop request forces `Idle` from every state. -/
theorem clean_exit_sets_idle :
    clean_exit_transition .Running = .Idle
    ∧ (∀ s, s ≠ .Running → clean_exit_transition s = s)
    ∧ (∀ s, stop_transfer_transition s = .Idle) := by
  refine ⟨rfl, ?_, fun _ => rfl⟩
  intro s hs
  cases s with
  | Idle => rfl
  | Running => exact absurd rfl hs
  | Error m => rfl

/-- Witness for C8's amended theorem: an `Error` state survives the clean
exit unchanged. -/
theorem clean_exit_sets_idle_witness :
    clean_exit_transition (.Error "boom") = .Error "boom" :=
  clean_exit_sets_idle.2.1 (.Error "boom") (by decide)

/-- Counterexample for C9: an IPv6 multicast address (`ff02::1`) PASSES
multicast validation — the check accepts IPv6 multicast, contradicting
"every IPv6 address returns a ValidationError". -/
theorem multicast_accepts_ipv6_counterexample :
    validate_network_config_by_ip (.V6 0xff02 0 0 0 0 0 0 1) .Multicast = .ok () := by
  decide

/-- C9 (amended): multicast validation succeeds exactly for multicast
addresses — IPv4 in `224.0.0.0/4` (first octet in `224..=239`) OR IPv6
with `segments()[0] & 0xff00 == 0xff00`; every non-multicast address gets
a `ValidationError` naming the address. -/
theorem multicast_validation_iff_multicast (ip : IpAddr) :
    (validate_network_config_by_ip ip .Multicast = .ok () ↔ is_multicast_address ip = true)
    ∧ (is_multicast_address ip = false →
        validate_network_config_by_ip ip .Multicast =
          .error (.validationErr "Address"
            ("Address " ++ ipDisplay ip ++ " is not a valid multicast address")))
    ∧ (∀ a b c d, is_multicast_address (.V4 a b c d) = (decide (224 ≤ a) && decide (a ≤ 239)))
    ∧ (∀ s0 s1 s2 s3 s4 s5 s6 s7,
        is_multicast_address (.V6 s0 s1 s2 s3 s4 s5 s6 s7) = ((s0 &&& 0xff00) == 0xff00)) := by
  refine ⟨?_, ?_, fun _ _ _ _ => rfl, fun _ _ _ _ _ _ _ _ => rfl⟩
  · rw [validate_network_config_by_ip]
    cases hm : is_multicast_address ip with
    | true => simp
    | false => simp
  · intro hm
    rw [validate_network_config_by_ip, hm]
    rfl

/-- Witness for C9's amended theorem: a unicast IPv4 address is rejected
with the validation error. -/
theorem multicast_validation_iff_multicast_witness :
    validate_network_config_by_ip (.V4 10 0 0 1) .Multicast =
      .error (.validationErr "Address"
        ("Address " ++ ipDisplay (.V4 10 0 0 1) ++ " is not a valid multicast address")) :=
  (multicast_validation_iff_multicast (.V4 10 0 0 1)).2.1 (by decide)

end PcapTransfer
